import Mathlib

/-!
Verification model of the TCP file-transfer benchmark in this repository:
the server (tcp/server.c), the single-threaded client (tcp/client.c) and the
multi-threaded load-driver client (tcp/client/client.c).

The socket system calls are modelled by explicit traces of their results:
a list of read results for the server receive loop, a list of send results
for the client send loop, and boolean flags for the success of the other
calls.  Pure computations (byte-order conversion, index arithmetic, the
statistics/CSV output selection) are translated directly.
-/

namespace Transfer

/-- PAGE_SIZE from tcp/server.c and the clients: the chunk bound, 4096 bytes. -/
def PAGE_SIZE : Nat := 4096

/-- MAX_FILE_SIZE from tcp/server.c: 1048576 bytes (1024 kB). -/
def MAX_FILE_SIZE : Nat := 1048576

/-- Result of one blocking read(2) call on the data socket:
either a negative return (err) or a count of bytes placed in the buffer
(bytes n, where n = 0 means the peer closed the connection). -/
inductive ReadResult where
  | err : ReadResult
  | bytes : Nat → ReadResult
deriving DecidableEq, Repr

/-- Exit status of a chunk loop: the trace ran out while the loop still
wanted more data (pending, with the accumulated count), the loop hit a fatal
read/send result, or the loop condition became false (done, with the final
accumulated count). -/
inductive LoopExit where
  | pending : Nat → LoopExit
  | fatal : LoopExit
  | done : Nat → LoopExit
deriving DecidableEq, Repr

/-- The server chunk loop of receive_file (tcp/server.c lines 94-107):
while total_bytes_received < file_size, read up to PAGE_SIZE bytes;
a negative return or a zero return is fatal; otherwise the count is
accumulated.  Returns the loop exit together with the unconsumed trace. -/
def recvLoop (fileSize : Nat) : Nat → List ReadResult → LoopExit × List ReadResult
  | total, [] =>
      if total < fileSize then (LoopExit.pending total, []) else (LoopExit.done total, [])
  | total, r :: rest =>
      if total < fileSize then
        match r with
        | ReadResult.err => (LoopExit.fatal, rest)
        | ReadResult.bytes 0 => (LoopExit.fatal, rest)
        | ReadResult.bytes (n + 1) => recvLoop fileSize (total + (n + 1)) rest
      else (LoopExit.done total, r :: rest)

/-- Big-endian byte encoding of a 32-bit value, as htonl produces on the
little-endian hosts the benchmark targets (tcp/server.c line 61). -/
def htonl (n : Nat) : List Nat :=
  [n / 16777216 % 256, n / 65536 % 256, n / 256 % 256, n % 256]

/-- Big-endian decoding of a 4-byte buffer, as ntohl performs on the client
(tcp/client/client.c line 48); a buffer of any other shape decodes to 0. -/
def ntohl (b : List Nat) : Nat :=
  match b with
  | [b0, b1, b2, b3] => ((b0 * 256 + b1) * 256 + b2) * 256 + b3
  | _ => 0

/-- The 4 bytes that send_success_message (tcp/server.c lines 59-67) puts on
the wire: htonl applied to the integer 6. -/
def send_success_message : List Nat := htonl 6

/-- Outcome of one iteration of the 10-round for loop in receive_file
(tcp/server.c lines 91-117). -/
inductive RoundOutcome where
  | fatalErr : RoundOutcome
  | ackRound : List Nat → RoundOutcome
  | mismatchRound : Nat → RoundOutcome
  | pendingRound : Nat → RoundOutcome
deriving DecidableEq, Repr

/-- One round of receive_file: run the chunk loop from total 0; on exit,
if the accumulated count equals file_size, send the success message (ackOk
gives the result of that send; a failed send returns -1 from receive_file),
otherwise log the mismatch and fall through to the next round. -/
def runRound (fileSize : Nat) (ackOk : Bool) (reads : List ReadResult) :
    RoundOutcome × List ReadResult :=
  match recvLoop fileSize 0 reads with
  | (LoopExit.pending t, rest) => (RoundOutcome.pendingRound t, rest)
  | (LoopExit.fatal, rest) => (RoundOutcome.fatalErr, rest)
  | (LoopExit.done total, rest) =>
      if total = fileSize then
        if ackOk then (RoundOutcome.ackRound send_success_message, rest)
        else (RoundOutcome.fatalErr, rest)
      else (RoundOutcome.mismatchRound total, rest)

/-- Result of receive_file as a whole: returned 0, returned -1, or would
block forever on a read the trace does not contain. -/
inductive ServerResult where
  | ok : ServerResult
  | ioError : ServerResult
  | blocked : ServerResult
deriving DecidableEq, Repr

/-- The for loop of receive_file (tcp/server.c line 91): rounds remaining,
current round index (used to index the per-round ack-send results), and the
remaining read trace. -/
def runRounds (fileSize : Nat) (ackOk : Nat → Bool) :
    Nat → Nat → List ReadResult → ServerResult
  | 0, _, _ => ServerResult.ok
  | n + 1, i, reads =>
      match runRound fileSize (ackOk i) reads with
      | (RoundOutcome.fatalErr, _) => ServerResult.ioError
      | (RoundOutcome.pendingRound _, _) => ServerResult.blocked
      | (RoundOutcome.ackRound _, rest) => runRounds fileSize ackOk n (i + 1) rest
      | (RoundOutcome.mismatchRound _, rest) => runRounds fileSize ackOk n (i + 1) rest

/-- The header bound check of receive_file (tcp/server.c line 79):
reject when file_size < 1024 or file_size > MAX_FILE_SIZE. -/
def header_accepted (L : Int) : Bool :=
  !(L < 1024 || L > (MAX_FILE_SIZE : Int))

/-- receive_file (tcp/server.c lines 69-120): read the length header (none
models a negative read return), validate the bounds, then run 10 rounds.
Buffer allocation is modelled as succeeding. -/
def receive_file (hdr : Option Int) (ackOk : Nat → Bool) (reads : List ReadResult) :
    ServerResult :=
  match hdr with
  | none => ServerResult.ioError
  | some L =>
      if header_accepted L then runRounds L.toNat ackOk 10 0 reads
      else ServerResult.ioError

/-- Result of one send(2) call in the client chunk loop: a negative return
(err) or m bytes accepted by the kernel. -/
inductive SendResult where
  | err : SendResult
  | sent : Nat → SendResult
deriving DecidableEq, Repr

/-- bytes_to_send of send_file (tcp/client/client.c lines 64-67): the
remaining byte count, capped at PAGE_SIZE. -/
def bytes_to_send (fileSize total : Nat) : Nat :=
  if fileSize - total > PAGE_SIZE then PAGE_SIZE else fileSize - total

/-- The client chunk loop of send_file (tcp/client/client.c lines 62-78):
while total_bytes_sent < file_size, send up to bytes_to_send bytes;
a negative return is fatal; otherwise the count returned by send is
accumulated.  Returns the loop exit together with the unconsumed trace. -/
def sendLoop (fileSize : Nat) : Nat → List SendResult → LoopExit × List SendResult
  | total, [] =>
      if total < fileSize then (LoopExit.pending total, []) else (LoopExit.done total, [])
  | total, s :: rest =>
      if total < fileSize then
        match s with
        | SendResult.err => (LoopExit.fatal, rest)
        | SendResult.sent m => sendLoop fileSize (total + m) rest
      else (LoopExit.done total, s :: rest)

/-- A send trace is well formed for the loop state when every successful
send moved at most the number of bytes the loop requested of it
(send(2) never transfers more than its length argument). -/
def validSendTrace (fileSize : Nat) : Nat → List SendResult → Bool
  | _, [] => true
  | _, SendResult.err :: _ => true
  | total, SendResult.sent m :: rest =>
      decide (m ≤ bytes_to_send fileSize total) && validSendTrace fileSize (total + m) rest

/-- validate_success_message (tcp/client/client.c lines 42-54 and
tcp/client.c lines 32-44): none models a negative recv return; otherwise
the 4-byte buffer content is decoded with ntohl and compared with 6. -/
def validate_success_message (recvRes : Option (List Nat)) : Int :=
  match recvRes with
  | none => -1
  | some b => if ntohl b = 6 then 0 else -1

/-- Result of one client round (send_file of tcp/client/client.c):
returned 0, returned -1, or would block on a trace that ran out. -/
inductive ClientRoundResult where
  | ok : ClientRoundResult
  | fatal : ClientRoundResult
  | blocked : ClientRoundResult
deriving DecidableEq, Repr

/-- send_file (tcp/client/client.c lines 56-86): run the chunk loop, then
validate the acknowledgment. -/
def send_file (fileSize : Nat) (sends : List SendResult)
    (ackRecv : Option (List Nat)) : ClientRoundResult :=
  match sendLoop fileSize 0 sends with
  | (LoopExit.fatal, _) => ClientRoundResult.fatal
  | (LoopExit.pending _, _) => ClientRoundResult.blocked
  | (LoopExit.done _, _) =>
      if validate_success_message ackRecv < 0 then ClientRoundResult.fatal
      else ClientRoundResult.ok

/-- connect_to_server (tcp/client.c lines 13-30 and tcp/client/client.c
lines 23-40): socket_fd is the socket(2) result (none for a negative
return), connect_ok the success of connect(2).  When socket creation
fails the function returns -1; a connect failure only prints a diagnostic
and control falls through to return sockfd unchanged. -/
def connect_to_server (socket_fd : Option Nat) (connect_ok : Bool) : Int :=
  match socket_fd with
  | none => -1
  | some fd =>
      -- the `if (err == -1)` branch in the source only logs; both paths
      -- reach `return sockfd`, so connect_ok does not affect the result
      fd

/-- Sum of the byte counts in a read trace. -/
def read_trace_sum : List ReadResult → Nat
  | [] => 0
  | ReadResult.err :: rest => read_trace_sum rest
  | ReadResult.bytes n :: rest => n + read_trace_sum rest

/-- Sum of the byte counts in a send trace. -/
def send_trace_sum : List SendResult → Nat
  | [] => 0
  | SendResult.err :: rest => send_trace_sum rest
  | SendResult.sent m :: rest => m + send_trace_sum rest

/-- Every element of the read trace is a short but successful read:
at least one byte and fewer than the PAGE_SIZE bytes requested. -/
def all_short_reads : List ReadResult → Bool
  | [] => true
  | ReadResult.err :: _ => false
  | ReadResult.bytes n :: rest =>
      decide (1 ≤ n ∧ n < PAGE_SIZE) && all_short_reads rest

/-- Every element of the send trace is a successful send of at least one
byte (a write that may have moved fewer bytes than requested). -/
def all_short_sends : List SendResult → Bool
  | [] => true
  | SendResult.err :: _ => false
  | SendResult.sent m :: rest => decide (1 ≤ m) && all_short_sends rest

/-- Results of the system calls made by listen_to_client
(tcp/server.c lines 16-57). -/
structure ListenEnv where
  socket_fd : Option Nat
  setsockopt_ok : Bool
  bind_ok : Bool
  listen_ok : Bool
  accept_fd : Option Nat
deriving DecidableEq, Repr

/-- listen_to_client (tcp/server.c lines 16-57): each failing call logs and
returns -1; on success the accepted descriptor is returned. -/
def listen_to_client (e : ListenEnv) : Int :=
  match e.socket_fd with
  | none => -1
  | some _ =>
      if !e.setsockopt_ok then -1
      else if !e.bind_ok then -1
      else if !e.listen_ok then -1
      else
        match e.accept_fd with
        | none => -1
        | some fd => fd

/-- main of tcp/server.c (lines 122-143): the pair is the value of the
return statement together with whether the branch that logs
Failed to receive file was taken; none models a run that blocks inside
receive_file.  A failed receive_file is only logged: the function still
falls through to return 0. -/
def server_main (e : ListenEnv) (hdr : Option Int) (ackOk : Nat → Bool)
    (reads : List ReadResult) : Option (Int × Bool) :=
  if listen_to_client e = -1 then some (-1, false)
  else
    match receive_file hdr ackOk reads with
    | ServerResult.ioError => some (0, true)
    | ServerResult.ok => some (0, false)
    | ServerResult.blocked => none

/-- requests_per_thread of the load driver
(tcp/client/client.c line 194): integer division of the totals. -/
def requests_per_thread (R T : Nat) : Nat := R / T

/-- The latency-array index written by worker t at its i-th round
(tcp/client/client.c lines 93 and 113): thread_index * requests_per_thread + i. -/
def sample_index (R T t i : Nat) : Nat := t * requests_per_thread R T + i

/-- The set of latency-array indices worker t writes:
[t * (R/T), (t+1) * (R/T)). -/
def thread_range (R T t : Nat) : Finset Nat :=
  Finset.Ico (t * requests_per_thread R T) ((t + 1) * requests_per_thread R T)

/-- The RPS figure printed by both clients
(tcp/client/client.c line 273 and tcp/client.c line 182):
total_requests / total_latency * 1000000, where total_latency is the sum of
the recorded per-round latencies in microseconds. -/
def rps_reported (total_requests : Nat) (latencies : List ℚ) : ℚ :=
  (total_requests : ℚ) / latencies.sum * 1000000

/-- Follows the words of the spec for comparison with rps_reported:
RPS computed as total rounds divided by total elapsed wall-clock time of
the run, in seconds. -/
def rps_wall_clock_spec (rounds : Nat) (elapsed_seconds : ℚ) : ℚ :=
  (rounds : ℚ) / elapsed_seconds

/-- A line of the output CSV file of the load driver: the header, the full
data row of case 1 of the switch (requests, bytes, threads, RPS, StdErr,
Min, Max, Avg and the five percentiles), the single-metric lines of cases
2-9, or the line of the default case. -/
inductive OutLine where
  | header : OutLine
  | dataRow : OutLine
  | minLine : OutLine
  | maxLine : OutLine
  | avgLine : OutLine
  | line50 : OutLine
  | line90 : OutLine
  | line99 : OutLine
  | line99p9 : OutLine
  | line99p99 : OutLine
  | invalidLine : OutLine
deriving DecidableEq, Repr

/-- The switch on target_metric (tcp/client/client.c lines 258-311):
which line one run appends. -/
def switch_output (m : Int) : OutLine :=
  if m = 1 then OutLine.dataRow
  else if m = 2 then OutLine.minLine
  else if m = 3 then OutLine.maxLine
  else if m = 4 then OutLine.avgLine
  else if m = 5 then OutLine.line50
  else if m = 6 then OutLine.line90
  else if m = 7 then OutLine.line99
  else if m = 8 then OutLine.line99p9
  else if m = 9 then OutLine.line99p99
  else OutLine.invalidLine

/-- The output phase of the load driver main (tcp/client/client.c lines
234-312) after a successful fopen in append mode (a failed fopen returns -1
before any write): every write lands at the end of the file, the header row
is written when ftell at the end reports 0 (the file is empty), and the
switch appends its one line. -/
def write_results (file : List OutLine) (m : Int) : List OutLine :=
  file ++ (if file.isEmpty then [OutLine.header] else []) ++ [switch_output m]

/-! Helper lemmas about the chunk loops. -/

/-- When the server chunk loop exits normally, the accumulated count has
reached file_size and never shrank below its starting value. -/
theorem recvLoop_done_ge (fileSize : Nat) :
    ∀ (reads : List ReadResult) (t total : Nat) (rest : List ReadResult),
      recvLoop fileSize t reads = (LoopExit.done total, rest) →
      fileSize ≤ total ∧ t ≤ total := by
  intro reads
  induction reads with
  | nil =>
      intro t total rest h
      by_cases hlt : t < fileSize
      · simp [recvLoop, hlt] at h
      · simp [recvLoop, hlt] at h
        omega
  | cons r rs ih =>
      intro t total rest h
      by_cases hlt : t < fileSize
      · cases r with
        | err => simp [recvLoop, hlt] at h
        | bytes n =>
            cases n with
            | zero => simp [recvLoop, hlt] at h
            | succ k =>
                simp only [recvLoop, if_pos hlt] at h
                have := ih (t + (k + 1)) total rest h
                omega
      · simp [recvLoop, hlt] at h
        omega

/-- A trace of short successful reads whose total stays below file_size
leaves the server chunk loop still awaiting data: no completion, no error. -/
theorem recvLoop_short_pending (fileSize : Nat) :
    ∀ (reads : List ReadResult) (total : Nat),
      all_short_reads reads = true →
      total + read_trace_sum reads < fileSize →
      recvLoop fileSize total reads =
        (LoopExit.pending (total + read_trace_sum reads), []) := by
  intro reads
  induction reads with
  | nil =>
      intro total _ hlt
      simp only [read_trace_sum] at hlt ⊢
      have hlt2 : total < fileSize := by omega
      simp [recvLoop, hlt2]
  | cons r rs ih =>
      intro total hall hlt
      cases r with
      | err => simp [all_short_reads] at hall
      | bytes n =>
          simp only [all_short_reads, Bool.and_eq_true, decide_eq_true_eq] at hall
          obtain ⟨⟨hn1, _⟩, hrest⟩ := hall
          cases n with
          | zero => omega
          | succ k =>
              simp only [read_trace_sum] at hlt ⊢
              have hstep : total < fileSize := by omega
              simp only [recvLoop, if_pos hstep]
              have := ih (total + (k + 1)) hrest (by omega)
              rw [this]
              have harith : total + (k + 1) + read_trace_sum rs
                  = total + (k + 1 + read_trace_sum rs) := by omega
              rw [harith]

/-- When the client chunk loop exits normally on a well-formed send trace,
the accumulated count equals file_size exactly. -/
theorem sendLoop_done_eq (fileSize : Nat) :
    ∀ (sends : List SendResult) (t total : Nat) (rest : List SendResult),
      t ≤ fileSize →
      validSendTrace fileSize t sends = true →
      sendLoop fileSize t sends = (LoopExit.done total, rest) →
      total = fileSize := by
  intro sends
  induction sends with
  | nil =>
      intro t total rest hle _ h
      by_cases hlt : t < fileSize
      · simp [sendLoop, hlt] at h
      · simp [sendLoop, hlt] at h
        omega
  | cons s rs ih =>
      intro t total rest hle hv h
      by_cases hlt : t < fileSize
      · cases s with
        | err => simp [sendLoop, hlt] at h
        | sent m =>
            simp only [validSendTrace, Bool.and_eq_true, decide_eq_true_eq] at hv
            obtain ⟨hm, hrest⟩ := hv
            simp only [sendLoop, if_pos hlt] at h
            have hbound : m ≤ fileSize - t := by
              by_cases hbig : fileSize - t > PAGE_SIZE
              · simp [bytes_to_send, hbig] at hm; omega
              · simpa [bytes_to_send, hbig] using hm
            exact ih (t + m) total rest (by omega) hrest h
      · simp [sendLoop, hlt] at h
        omega

/-- A trace of successful partial sends whose total stays below file_size
leaves the client chunk loop still iterating: no completion, no error. -/
theorem sendLoop_short_pending (fileSize : Nat) :
    ∀ (sends : List SendResult) (total : Nat),
      all_short_sends sends = true →
      total + send_trace_sum sends < fileSize →
      sendLoop fileSize total sends =
        (LoopExit.pending (total + send_trace_sum sends), []) := by
  intro sends
  induction sends with
  | nil =>
      intro total _ hlt
      simp only [send_trace_sum] at hlt ⊢
      have hlt2 : total < fileSize := by omega
      simp [sendLoop, hlt2]
  | cons s rs ih =>
      intro total hall hlt
      cases s with
      | err => simp [all_short_sends] at hall
      | sent m =>
          simp only [all_short_sends, Bool.and_eq_true, decide_eq_true_eq] at hall
          obtain ⟨_, hrest⟩ := hall
          simp only [send_trace_sum] at hlt ⊢
          have hstep : total < fileSize := by omega
          simp only [sendLoop, if_pos hstep]
          have := ih (total + m) hrest (by omega)
          rw [this]
          have harith : total + m + send_trace_sum rs
              = total + (m + send_trace_sum rs) := by omega
          rw [harith]

/-- A round of receive_file produces an acknowledgment exactly from the
branch where the chunk loop finished with the exact byte count and the
send of the success message succeeded. -/
theorem runRound_ack_inv (fileSize : Nat) (ackOk : Bool) (reads : List ReadResult)
    (msg : List Nat) (rest : List ReadResult)
    (h : runRound fileSize ackOk reads = (RoundOutcome.ackRound msg, rest)) :
    recvLoop fileSize 0 reads = (LoopExit.done fileSize, rest) ∧
    msg = send_success_message ∧ ackOk = true := by
  rcases hr : recvLoop fileSize 0 reads with ⟨ex, rem⟩
  cases ex with
  | pending t => simp [runRound, hr] at h
  | fatal => simp [runRound, hr] at h
  | done total =>
      by_cases he : total = fileSize
      · subst he
        by_cases ha : ackOk
        · subst ha
          simp [runRound, hr] at h
          exact ⟨by rw [h.2], h.1.symm, rfl⟩
        · simp [runRound, hr, ha] at h
      · simp [runRound, hr, he] at h

/-- The switch on target_metric never emits the header row. -/
theorem switch_output_ne_header (m : Int) : switch_output m ≠ OutLine.header := by
  unfold switch_output
  split_ifs <;> simp

/-- Index ranges scaled by a common factor are pairwise disjoint. -/
theorem Ico_mul_disjoint (q t1 t2 : Nat) (hne : t1 ≠ t2) :
    Disjoint (Finset.Ico (t1 * q) ((t1 + 1) * q)) (Finset.Ico (t2 * q) ((t2 + 1) * q)) := by
  rw [Finset.disjoint_left]
  intro x hx1 hx2
  rw [Finset.mem_Ico] at hx1 hx2
  rcases Nat.lt_or_ge t1 t2 with h | h
  · have hle : (t1 + 1) * q ≤ t2 * q := mul_le_mul_right' (Nat.succ_le_of_lt h) q
    linarith [hx1.2, hx2.1]
  · have h2 : t2 < t1 := lt_of_le_of_ne h hne.symm
    have hle : (t2 + 1) * q ≤ t1 * q := mul_le_mul_right' (Nat.succ_le_of_lt h2) q
    linarith [hx2.2, hx1.1]

/-- The scaled index ranges tile the initial segment [0, n*q). -/
theorem range_biUnion_Ico (q : Nat) :
    ∀ n : Nat, (Finset.range n).biUnion (fun t => Finset.Ico (t * q) ((t + 1) * q))
      = Finset.Ico 0 (n * q) := by
  intro n
  induction n with
  | zero => simp
  | succ k ih =>
      rw [Finset.range_succ, Finset.biUnion_insert, ih, Finset.union_comm,
        Finset.Ico_union_Ico_eq_Ico (Nat.zero_le _)
          (mul_le_mul_right' (Nat.le_succ k) q)]

/-! Claim theorems. -/

/-- C1: a transfer unit is considered complete (the server sends its
acknowledgment, the client leaves its chunk loop for the acknowledgment
wait) only once exactly file_size bytes have accumulated; reads and writes
that move fewer bytes than requested only cause further iterations of the
chunk loop, never early completion and never failure by themselves. -/
theorem C1_exact_byte_completion :
    (∀ (fileSize : Nat) (ackOk : Bool) (reads : List ReadResult)
        (msg : List Nat) (rest : List ReadResult),
        runRound fileSize ackOk reads = (RoundOutcome.ackRound msg, rest) →
        recvLoop fileSize 0 reads = (LoopExit.done fileSize, rest)) ∧
    (∀ (fileSize total : Nat) (reads : List ReadResult),
        all_short_reads reads = true →
        total + read_trace_sum reads < fileSize →
        recvLoop fileSize total reads =
          (LoopExit.pending (total + read_trace_sum reads), [])) ∧
    (∀ (fileSize total : Nat) (sends rest : List SendResult),
        validSendTrace fileSize 0 sends = true →
        sendLoop fileSize 0 sends = (LoopExit.done total, rest) →
        total = fileSize) ∧
    (∀ (fileSize total : Nat) (sends : List SendResult),
        all_short_sends sends = true →
        total + send_trace_sum sends < fileSize →
        sendLoop fileSize total sends =
          (LoopExit.pending (total + send_trace_sum sends), [])) := by
  refine ⟨?_, ?_, ?_, ?_⟩
  · intro fileSize ackOk reads msg rest h
    exact (runRound_ack_inv fileSize ackOk reads msg rest h).1
  · intro fileSize total reads h1 h2
    exact recvLoop_short_pending fileSize reads total h1 h2
  · intro fileSize total sends rest hv h
    exact sendLoop_done_eq fileSize sends 0 total rest (Nat.zero_le _) hv h
  · intro fileSize total sends h1 h2
    exact sendLoop_short_pending fileSize sends total h1 h2

/-- Concrete runs of C1_exact_byte_completion: an acknowledged round with
exactly 8192 bytes, a short read and a short send leaving the loops
pending, and a valid send trace completing at exactly 5000 bytes. -/
theorem C1_exact_byte_completion_w :
    recvLoop 8192 0 [ReadResult.bytes 4096, ReadResult.bytes 4096]
      = (LoopExit.done 8192, []) ∧
    recvLoop 8192 100 [ReadResult.bytes 50] = (LoopExit.pending 150, []) ∧
    (5000 : Nat) = 5000 ∧
    sendLoop 8192 100 [SendResult.sent 50] = (LoopExit.pending 150, []) :=
  ⟨C1_exact_byte_completion.1 8192 true [ReadResult.bytes 4096, ReadResult.bytes 4096]
      send_success_message [] (by decide),
   C1_exact_byte_completion.2.1 8192 100 [ReadResult.bytes 50] (by decide) (by decide),
   C1_exact_byte_completion.2.2.1 5000 5000 [SendResult.sent 4096, SendResult.sent 904]
      [] (by decide) (by decide),
   C1_exact_byte_completion.2.2.2 8192 100 [SendResult.sent 50] (by decide) (by decide)⟩

/-- C2: the acknowledgment is exactly 4 bytes, the big-endian encoding of
the 32-bit integer 6, and a round of receive_file emits it exactly when the
accumulated byte count has reached file_size, never before. -/
theorem C2_ack_big_endian_six :
    send_success_message.length = 4 ∧
    send_success_message = [0, 0, 0, 6] ∧
    ntohl send_success_message = 6 ∧
    (∀ (fileSize : Nat) (ackOk : Bool) (reads : List ReadResult)
        (msg : List Nat) (rest : List ReadResult),
        runRound fileSize ackOk reads = (RoundOutcome.ackRound msg, rest) →
        msg = send_success_message ∧
        recvLoop fileSize 0 reads = (LoopExit.done fileSize, rest)) ∧
    (∀ (fileSize : Nat) (reads rest : List ReadResult),
        recvLoop fileSize 0 reads = (LoopExit.done fileSize, rest) →
        runRound fileSize true reads
          = (RoundOutcome.ackRound send_success_message, rest)) := by
  refine ⟨by decide, by decide, by decide, ?_, ?_⟩
  · intro fileSize ackOk reads msg rest h
    obtain ⟨h1, h2, _⟩ := runRound_ack_inv fileSize ackOk reads msg rest h
    exact ⟨h2, h1⟩
  · intro fileSize reads rest h
    simp [runRound, h]

/-- Concrete run of C2_ack_big_endian_six: a 4096-byte round is
acknowledged with the byte sequence 0,0,0,6 exactly at completion. -/
theorem C2_ack_big_endian_six_w :
    ([0, 0, 0, 6] = send_success_message ∧
      recvLoop 4096 0 [ReadResult.bytes 4096] = (LoopExit.done 4096, [])) ∧
    runRound 4096 true [ReadResult.bytes 4096]
      = (RoundOutcome.ackRound send_success_message, []) :=
  ⟨C2_ack_big_endian_six.2.2.2.1 4096 true [ReadResult.bytes 4096]
      [0, 0, 0, 6] [] (by decide),
   C2_ack_big_endian_six.2.2.2.2 4096 [ReadResult.bytes 4096] [] (by decide)⟩

/-- C3 counterexample: the server rejects the header value L = 8 (its
check is file_size < 1024), although the claim states that every L with
8 <= L <= 1048576 proceeds to the transfer phase; at L = 8 the claimed
equivalence fails and receive_file aborts. -/
theorem C3_cex_lower_bound :
    ¬((header_accepted 8 = true) ↔ (8 ≤ (8 : Int) ∧ (8 : Int) ≤ 1048576)) ∧
    receive_file (some 8) (fun _ => true) [] = ServerResult.ioError :=
  ⟨by decide, by decide⟩

/-- C3 amended: the server proceeds to the transfer phase if and only if
1024 <= L <= 1048576; any L outside that range (such as 7, 8 or 1048577)
makes receive_file log and return failure without entering the rounds. -/
theorem C3_header_bounds (L : Int) (ackOk : Nat → Bool) (reads : List ReadResult) :
    (header_accepted L = true ↔ (1024 ≤ L ∧ L ≤ 1048576)) ∧
    (¬(1024 ≤ L ∧ L ≤ 1048576) →
      receive_file (some L) ackOk reads = ServerResult.ioError) ∧
    ((1024 ≤ L ∧ L ≤ 1048576) →
      receive_file (some L) ackOk reads = runRounds L.toNat ackOk 10 0 reads) := by
  have hiff : header_accepted L = true ↔ (1024 ≤ L ∧ L ≤ 1048576) := by
    simp only [header_accepted, MAX_FILE_SIZE, Bool.not_eq_true', Bool.or_eq_false_iff,
      decide_eq_false_iff_not, not_lt]
    constructor
    · intro h
      exact ⟨h.1, by exact_mod_cast h.2⟩
    · intro h
      exact ⟨h.1, by exact_mod_cast h.2⟩
  refine ⟨hiff, ?_, ?_⟩
  · intro h
    have hfalse : header_accepted L = false := by
      cases hb : header_accepted L
      · rfl
      · exact absurd (hiff.mp hb) h
    simp [receive_file, hfalse]
  · intro h
    simp [receive_file, hiff.mpr h]

/-- Concrete runs of C3_header_bounds: L = 7 is rejected before the
transfer phase, L = 2048 enters the 10-round transfer loop. -/
theorem C3_header_bounds_w :
    (¬(1024 ≤ (7 : Int) ∧ (7 : Int) ≤ 1048576)) ∧
    receive_file (some 7) (fun _ => true) [] = ServerResult.ioError ∧
    ((1024 ≤ (2048 : Int) ∧ (2048 : Int) ≤ 1048576)) ∧
    receive_file (some 2048) (fun _ => true) []
      = runRounds 2048 (fun _ => true) 10 0 [] :=
  ⟨by decide, (C3_header_bounds 7 (fun _ => true) []).2.1 (by decide), by decide,
   (C3_header_bounds 2048 (fun _ => true) []).2.2 (by decide)⟩

/-- C4: the acknowledgment validation returns failure exactly when the
receive operation errs or the 4-byte buffer decodes (big-endian) to a value
other than 6, and returns success in every other case. -/
theorem C4_validate_ack (r : Option (List Nat)) :
    (validate_success_message r = -1 ∨ validate_success_message r = 0) ∧
    (validate_success_message r = -1 ↔
      r = none ∨ ∃ b, r = some b ∧ ntohl b ≠ 6) ∧
    (validate_success_message r = 0 ↔ ∃ b, r = some b ∧ ntohl b = 6) := by
  cases r with
  | none => simp [validate_success_message]
  | some b =>
      by_cases h : ntohl b = 6
      · simp [validate_success_message, h]
      · simp [validate_success_message, h]

/-- C5: evaluation at the failing input. socket(2) succeeds with
descriptor 3 and connect(2) fails, yet connect_to_server returns 3, which
a negative-value check does not flag; only the socket-creation failure
path yields the -1 sentinel. -/
theorem C5_connect_failure_not_flagged :
    connect_to_server (some 3) false = 3 ∧
    ¬(connect_to_server (some 3) false < 0) ∧
    connect_to_server none false = -1 :=
  ⟨by decide, by decide, by decide⟩

/-- C6 counterexample: with a successful accept and a read error in the
transfer phase, receive_file fails, yet main only logs the failure and
returns 0 - refuting the claim that every transfer-phase I/O failure
yields a nonzero exit code. -/
theorem C6_cex_transfer_failure_exit_zero :
    receive_file (some 2048) (fun _ => true) [ReadResult.err] = ServerResult.ioError ∧
    server_main ⟨some 3, true, true, true, some 4⟩ (some 2048) (fun _ => true)
      [ReadResult.err] = some (0, true) :=
  ⟨by decide, by decide⟩

/-- C6 amended: the server exits nonzero (returns -1) exactly when the
socket/bind/listen/accept phase fails; whenever a connection is accepted
and the process terminates, the exit code is 0 even if the transfer phase
failed (that failure is only logged). -/
theorem C6_exit_code (e : ListenEnv) (hdr : Option Int) (ackOk : Nat → Bool)
    (reads : List ReadResult) :
    (listen_to_client e = -1 →
      server_main e hdr ackOk reads = some (-1, false)) ∧
    (listen_to_client e ≠ -1 →
      ∀ p : Int × Bool, server_main e hdr ackOk reads = some p → p.1 = 0) := by
  constructor
  · intro h
    simp [server_main, h]
  · intro h p hp
    simp only [server_main] at hp
    rw [if_neg h] at hp
    rcases hres : receive_file hdr ackOk reads with _ | _ | _
    · rw [hres] at hp
      obtain rfl := (Option.some.inj hp).symm
      rfl
    · rw [hres] at hp
      obtain rfl := (Option.some.inj hp).symm
      rfl
    · rw [hres] at hp
      simp at hp

/-- Concrete runs of C6_exit_code: a bind failure exits with -1, while an
accepted connection whose transfer phase hits a read error still exits 0. -/
theorem C6_exit_code_w :
    server_main ⟨some 3, true, false, true, some 4⟩ none (fun _ => true) []
      = some (-1, false) ∧
    ((0 : Int), true).1 = 0 :=
  ⟨(C6_exit_code ⟨some 3, true, false, true, some 4⟩ none (fun _ => true) []).1
      (by decide),
   (C6_exit_code ⟨some 3, true, true, true, some 4⟩ (some 2048) (fun _ => true)
      [ReadResult.err]).2 (by decide) ((0 : Int), true) (by decide)⟩

/-- C7: for T >= 1 threads and R total requests, the per-thread
latency-index ranges [t*(R/T), (t+1)*(R/T)) are pairwise disjoint, every
written sample index lands in its thread's range, their union is
[0, T*(R/T)), and the R mod T leftover indices account exactly for the
dropped remainder requests. -/
theorem C7_disjoint_partition (R T : Nat) (hT : 1 ≤ T) :
    (∀ t1 t2, t1 < T → t2 < T → t1 ≠ t2 →
      Disjoint (thread_range R T t1) (thread_range R T t2)) ∧
    (∀ t i, i < requests_per_thread R T →
      sample_index R T t i ∈ thread_range R T t) ∧
    (Finset.range T).biUnion (thread_range R T)
      = Finset.Ico 0 (T * requests_per_thread R T) ∧
    T * requests_per_thread R T + R % T = R := by
  refine ⟨?_, ?_, ?_, ?_⟩
  · intro t1 t2 _ _ hne
    exact Ico_mul_disjoint (requests_per_thread R T) t1 t2 hne
  · intro t i hi
    rw [thread_range, sample_index, Finset.mem_Ico]
    refine ⟨Nat.le_add_right _ _, ?_⟩
    rw [Nat.succ_mul]
    exact Nat.add_lt_add_left hi _
  · simpa [thread_range] using range_biUnion_Ico (requests_per_thread R T) T
  · exact Nat.div_add_mod R T

/-- Concrete run of C7_disjoint_partition at R = 10, T = 3: three disjoint
ranges of 3 indices each, covering [0, 9) and dropping 10 mod 3 = 1
request. -/
theorem C7_disjoint_partition_w :
    1 ≤ 3 ∧
    ((∀ t1 t2, t1 < 3 → t2 < 3 → t1 ≠ t2 →
        Disjoint (thread_range 10 3 t1) (thread_range 10 3 t2)) ∧
      (∀ t i, i < requests_per_thread 10 3 →
        sample_index 10 3 t i ∈ thread_range 10 3 t) ∧
      (Finset.range 3).biUnion (thread_range 10 3)
        = Finset.Ico 0 (3 * requests_per_thread 10 3) ∧
      3 * requests_per_thread 10 3 + 10 % 3 = 10) :=
  ⟨by decide, C7_disjoint_partition 10 3 (by decide)⟩

/-- C8 counterexample: two workers each complete one round of latency
1000000 microseconds concurrently, so the run elapses 1 second of wall
time; the client reports 2 / (1000000 + 1000000) * 1000000 = 1 RPS, while
rounds per elapsed wall-clock second is 2 / 1 = 2.  The reported figure
divides by the sum of per-round latencies, not by elapsed wall time. -/
theorem C8_cex_rps_not_wall_clock :
    rps_reported 2 [1000000, 1000000] = 1 ∧
    rps_wall_clock_spec 2 1 = 2 ∧
    rps_reported 2 [1000000, 1000000] ≠ rps_wall_clock_spec 2 1 := by
  refine ⟨?_, ?_, ?_⟩ <;>
    norm_num [rps_reported, rps_wall_clock_spec, List.sum_cons, List.sum_nil]

/-- C8 amended: the reported RPS equals the number of rounds divided by
the sum of all recorded per-round latencies expressed in seconds; the
clients accumulate total_latency as the sum of the samples and never
measure a wall-clock duration of the whole run. -/
theorem C8_rps_total_latency (R : Nat) (lats : List ℚ) :
    rps_reported R lats = (R : ℚ) / (lats.sum / 1000000) := by
  simp only [rps_reported]
  rw [div_div_eq_mul_div, div_mul_eq_mul_div]

/-- C9: the output CSV is only appended to (the previous content is the
unchanged initial segment), the header row is written exactly when the
file was empty at open time, and metric selector 1 appends exactly one
data row per run. -/
theorem C9_csv_append (file : List OutLine) (m : Int) :
    (write_results file m).take file.length = file ∧
    (OutLine.header ∈ (write_results file m).drop file.length ↔ file = []) ∧
    ((write_results file 1).drop file.length).count OutLine.dataRow = 1 := by
  refine ⟨?_, ?_, ?_⟩
  · simp [write_results, List.append_assoc, List.take_left]
  · cases file with
    | nil => simp [write_results]
    | cons a l =>
        simp [write_results, List.append_assoc, List.drop_left,
          (switch_output_ne_header m).symm]
  · cases file with
    | nil => simp [write_results, switch_output]
    | cons a l =>
        simp [write_results, List.append_assoc, List.drop_left, switch_output]

/-- C10: when a round of receive_file ends with an accumulated count
different from file_size (necessarily exceeding it, as the loop only exits
at or above file_size), the server takes the mismatch-logging branch,
sends no acknowledgment, and proceeds with the next round instead of
treating the mismatch as a terminal error. -/
theorem C10_mismatch_not_fatal (fileSize total : Nat) (reads rest : List ReadResult)
    (ackOk : Nat → Bool) (n i : Nat)
    (h : recvLoop fileSize 0 reads = (LoopExit.done total, rest))
    (hne : total ≠ fileSize) :
    runRound fileSize (ackOk i) reads = (RoundOutcome.mismatchRound total, rest) ∧
    fileSize < total ∧
    runRounds fileSize ackOk (n + 1) i reads = runRounds fileSize ackOk n (i + 1) rest := by
  have hge := (recvLoop_done_ge fileSize reads 0 total rest h).1
  have hrr : runRound fileSize (ackOk i) reads
      = (RoundOutcome.mismatchRound total, rest) := by
    simp [runRound, h, hne]
  refine ⟨hrr, by omega, ?_⟩
  simp [runRounds, hrr]

/-- Concrete run of C10_mismatch_not_fatal: a 5000-byte round that
received 8192 bytes logs the mismatch, sends no acknowledgment, and the
10-round loop continues as the 9-round loop on the remaining trace. -/
theorem C10_mismatch_not_fatal_w :
    runRound 5000 true [ReadResult.bytes 4096, ReadResult.bytes 4096]
      = (RoundOutcome.mismatchRound 8192, []) ∧
    5000 < 8192 ∧
    runRounds 5000 (fun _ => true) 10 0 [ReadResult.bytes 4096, ReadResult.bytes 4096]
      = runRounds 5000 (fun _ => true) 9 1 [] :=
  C10_mismatch_not_fatal 5000 8192 [ReadResult.bytes 4096, ReadResult.bytes 4096] []
    (fun _ => true) 9 0 (by decide) (by decide)

end Transfer
